import Mathlib

/-!
Verification development for the flower-shop backend
(`flower-shop-backend.py`): a shallow embedding of the image
normalizer (`resize_image`), the report generators (`export_excel`,
`export_pdf`), and the request handlers (`create_flower`,
`update_flower`, `delete_flower`, `get_flowers`, `get_stats`),
together with theorems settling the specification claims.

Machine integers are modelled as `Nat`/`Int`; pixel channels are
8-bit values (`≤ 255`).  External collaborators (the catalog store
and the object store) are modelled as explicit state (a list of
`(id, record)` pairs) plus traces of the calls issued against them;
outcomes of external calls (upload success/failure, fresh ids) are
passed in as oracle parameters.
-/

namespace FlowerShop

/-! ### Pixels and PIL-style blending

`muldiv255` is the fixed-point approximation of `x * y / 255` used by
PIL's `paste` with an 8-bit mask: `t = x*y + 128; ((t >> 8) + t) >> 8`.
`blend mask bg src` is PIL's per-channel mask blend
`MULDIV255(bg, 255-mask) + MULDIV255(src, mask)`. -/

structure RGB where
  r : Nat
  g : Nat
  b : Nat
deriving DecidableEq

structure RGBA where
  r : Nat
  g : Nat
  b : Nat
  a : Nat
deriving DecidableEq

def muldiv255 (x y : Nat) : Nat :=
  ((x * y + 128) >>> 8 + (x * y + 128)) >>> 8

def blend (mask bg src : Nat) : Nat :=
  muldiv255 bg (255 - mask) + muldiv255 src mask

/-- `background.paste(img, mask=alpha)` at one pixel, with a pure white
background `(255, 255, 255)`: each channel is mask-blended over 255. -/
def pasteOverWhite (p : RGBA) : RGB :=
  ⟨blend p.a 255 p.r, blend p.a 255 p.g, blend p.a 255 p.b⟩

/-- `LA → RGB` conversion (what `paste` does to an `LA` image pasted with
no mask): the luminance channel is replicated, the alpha channel dropped. -/
def laToRGB (l : Nat) : RGB := ⟨l, l, l⟩

/-- Exact "alpha composite over pure white" from the spec's words:
`round((alpha*c + (255-alpha)*255) / 255)`, rounding to the nearest
integer (`roundDiv255 x = round (x / 255)`; there are no ties since 255
is odd). This is the spec-side definition that the code-side
`pasteOverWhite` is compared against. -/
def roundDiv255 (x : Nat) : Nat := (2 * x + 255) / 510

def specCompositeOverWhite (alpha c : Nat) : Nat :=
  roundDiv255 (c * alpha + 255 * (255 - alpha))

/-! ### Decoded images -/

inductive Mode where
  | RGB
  | RGBA
  | LA
  | L
  | P
  | I
  | F
deriving DecidableEq

/-- Whether the mode carries an alpha channel or a palette (PIL mode `P`
may carry transparency through its palette). -/
def Mode.hasAlpha : Mode → Bool
  | .RGBA => true
  | .LA => true
  | .P => true
  | .RGB => false
  | .L => false
  | .I => false
  | .F => false

/-- Modes that PIL can write as a JPEG (its JPEG encoder accepts only
`1`/`L`/`RGB`/`RGBX`/`CMYK`/`YCbCr` raw modes; the integer and float
grayscale modes `I` and `F` make `save(format='JPEG')` raise). -/
def jpegWritable : Mode → Bool
  | .RGB => true
  | .L => true
  | _ => false

/-- A decoded in-memory image: dimensions plus a pixel map for each of
the color modes the source can receive.  `P` images carry a palette
mapping each index to an `RGBA` entry (covering palettes both with and
without transparency).  `i` is 32-bit (or 16-bit) integer grayscale —
what e.g. a 16-bit PNG decodes to — and `f` is float grayscale (e.g. a
float TIFF), its pixels modelled as raw 32-bit words since no arithmetic
is ever performed on them here: both modes skip the flattening branch
and reach the JPEG save, which raises on them. -/
inductive PILImage where
  | rgb (w h : Nat) (px : Nat → Nat → RGB)
  | rgba (w h : Nat) (px : Nat → Nat → RGBA)
  | la (w h : Nat) (px : Nat → Nat → Nat × Nat)
  | l (w h : Nat) (px : Nat → Nat → Nat)
  | p (w h : Nat) (palette : Nat → RGBA) (px : Nat → Nat → Nat)
  | i (w h : Nat) (px : Nat → Nat → Nat)
  | f (w h : Nat) (px : Nat → Nat → Nat)

def PILImage.width : PILImage → Nat
  | .rgb w _ _ => w
  | .rgba w _ _ => w
  | .la w _ _ => w
  | .l w _ _ => w
  | .p w _ _ _ => w
  | .i w _ _ => w
  | .f w _ _ => w

def PILImage.height : PILImage → Nat
  | .rgb _ h _ => h
  | .rgba _ h _ => h
  | .la _ h _ => h
  | .l _ h _ => h
  | .p _ h _ _ => h
  | .i _ h _ => h
  | .f _ h _ => h

def PILImage.mode : PILImage → Mode
  | .rgb _ _ _ => .RGB
  | .rgba _ _ _ => .RGBA
  | .la _ _ _ => .LA
  | .l _ _ _ => .L
  | .p _ _ _ _ => .P
  | .i _ _ _ => .I
  | .f _ _ _ => .F

/-- Lines 58-62 of the source: if the mode is `RGBA`, `LA` or `P`, build
a white `RGB` background of the same size and paste the image onto it;
`P` is first converted to `RGBA` (palette lookup) and then pasted with
its alpha band as mask, `RGBA` is pasted with its alpha band as mask,
and `LA` is pasted with `mask=None` (pasted directly: `paste` converts
it to `RGB`, dropping the alpha channel). Other modes are untouched. -/
def flatten : PILImage → PILImage
  | .rgba w h px => .rgb w h (fun x y => pasteOverWhite (px x y))
  | .la w h px => .rgb w h (fun x y => laToRGB (px x y).1)
  | .p w h pal px => .rgb w h (fun x y => pasteOverWhite (pal (px x y)))
  | img => img

/-- The pixel of an `RGB`-mode image at `(x, y)`; `none` for other modes. -/
def pxAt (img : PILImage) (x y : Nat) : Option RGB :=
  match img with
  | .rgb _ _ px => some (px x y)
  | _ => none

/-- All four channels of an `RGBA` pixel are 8-bit values. -/
def byte8 (p : RGBA) : Prop :=
  p.r ≤ 255 ∧ p.g ≤ 255 ∧ p.b ≤ 255 ∧ p.a ≤ 255

instance (p : RGBA) : Decidable (byte8 p) := by
  unfold byte8
  infer_instance

/-! ### `Image.thumbnail` dimension arithmetic

PIL's `thumbnail((mw, mh))` leaves the image untouched when it already
fits, and otherwise scales the short side with
`round_aspect(number, key) = max(min(floor(number), ceil(number), key=key), 1)`.
For the branch that recomputes the width the key is linear
(`|aspect - n/y|`), giving round-to-nearest with ties to floor
(`roundNear`).  For the branch that recomputes the height the key is
`|aspect - x/n|`, a harmonic comparison between floor and ceil (with a
candidate `0` keyed as error `0`), modelled by `roundHarm`.
Python's float arithmetic is modelled as exact rational arithmetic. -/

def roundNear (num den : Nat) : Nat :=
  if 2 * (num % den) ≤ den then num / den else num / den + 1

def roundHarm (num den : Nat) : Nat :=
  let f := num / den
  if num % den = 0 then f
  else if f = 0 then 0
  else if num * (f + (f + 1)) ≤ 2 * den * (f * (f + 1)) then f else f + 1

/-- Output dimensions of `img.thumbnail((mw, mh))` for a `w × h` image. -/
def thumbnailDims (w h mw mh : Nat) : Nat × Nat :=
  if w ≤ mw ∧ h ≤ mh then (w, h)
  else if mh * w ≤ mw * h then
    (max (roundNear (mh * w) h) 1, mh)
  else
    (mw, max (roundHarm (mw * h) w) 1)

/-- Mode and dimensions of the JPEG produced by `resize_image`
(the resampled pixel contents after `LANCZOS` are not modelled). -/
structure JpegMeta where
  mode : Mode
  width : Nat
  height : Nat
deriving DecidableEq

/-- Lines 55-69 of the source: flatten transparency/palette onto white,
`thumbnail((1200, 1200))`, then save as JPEG (quality 95).  The save
raises `OSError("cannot write mode ... as JPEG")` when the (flattened)
mode is not JPEG-writable, and line 69 re-raises it to the caller;
that failure path is the `Except.error` carrying the offending mode. -/
def resize_image (img : PILImage) : Except Mode JpegMeta :=
  let fl := flatten img
  let d := thumbnailDims fl.width fl.height 1200 1200
  if jpegWritable fl.mode then .ok ⟨fl.mode, d.1, d.2⟩ else .error fl.mode

/-! ### Catalog records -/

structure FlowerRow where
  name : String
  price : Int
  type : String
  unit : String
  stock : Int
  tags : String
  image_url : Option String
  created_at : Nat
deriving DecidableEq

/-! ### Report generation

Both exports render the fetched record list into the conceptual table
`[Index, Name, Price, Type, Unit, Stock, Tags]` with a 1-based index. -/

inductive Cell where
  | num (n : Int)
  | str (s : String)
deriving DecidableEq

def excelHeaders : List Cell :=
  [.str "STT", .str "Tên hoa", .str "Giá (VNĐ)", .str "Loại",
   .str "Quy cách", .str "Tồn kho", .str "Tags"]

/-- One spreadsheet data row (source line 177-179): index, then the
record's fields, `Tags` written in full. -/
def mkExcelRow (idx : Nat) (f : FlowerRow) : List Cell :=
  [.num idx, .str f.name, .num f.price, .str f.type, .str f.unit,
   .num f.stock, .str f.tags]

def excelRowsFrom : Nat → List FlowerRow → List (List Cell)
  | _, [] => []
  | k, f :: fs => mkExcelRow k f :: excelRowsFrom (k + 1) fs

/-- The full cell grid of the sheet: header row, then one data row per
record in input order (`enumerate(flowers, 2)` writes sheet row `idx`
with index cell `idx - 1`, so data indices run 1, 2, 3, ...). -/
def export_excel_rows (fs : List FlowerRow) : List (List Cell) :=
  excelHeaders :: excelRowsFrom 1 fs

def pad3 (n : Nat) : String :=
  if n < 10 then "00" ++ toString n
  else if n < 100 then "0" ++ toString n
  else toString n

/-- Digit grouping of Python's `f-string` format spec `,` on a natural
number: groups of three from the right, separated by commas.  The first
argument is recursion fuel (any value `≥ n` yields the same string). -/
def commaNatAux : Nat → Nat → String
  | 0, n => toString n
  | fuel + 1, n =>
    if n < 1000 then toString n
    else commaNatAux fuel (n / 1000) ++ "," ++ pad3 (n % 1000)

def commaNat (n : Nat) : String := commaNatAux n n

def commaInt (n : Int) : String :=
  (if n < 0 then "-" else "") ++ commaNat n.natAbs

/-- Python's `.replace(",", ".")` for a one-character pattern and
replacement is exactly a character map. -/
def replaceCommaDot (s : String) : String :=
  ⟨s.data.map (fun c => if c = ',' then '.' else c)⟩

/-- Source line 200: `f"{f['price']:,}".replace(",", ".")`. -/
def formatPricePdf (n : Int) : String := replaceCommaDot (commaInt n)

def pdfHeaders : List String :=
  ["STT", "Tên hoa", "Giá", "Loại", "Quy cách", "Tồn", "Tags"]

/-- One PDF data row (source line 199-200): stringified index, name,
price with thousands separators, type, unit, stringified stock, and the
tag string truncated to its first 30 characters. -/
def mkPdfRow (i : Nat) (f : FlowerRow) : List String :=
  [toString i, f.name, formatPricePdf f.price, f.type, f.unit,
   toString f.stock, f.tags.take 30]

def pdfRowsFrom : Nat → List FlowerRow → List (List String)
  | _, [] => []
  | k, f :: fs => mkPdfRow k f :: pdfRowsFrom (k + 1) fs

/-- The PDF table contents: header row, then one data row per record in
input order (`enumerate(flowers, 1)`). -/
def export_pdf_table (fs : List FlowerRow) : List (List String) :=
  pdfHeaders :: pdfRowsFrom 1 fs

/-- The closing paragraph of the PDF (source line 204):
`f"<b>Tổng: {len(flowers)} sản phẩm</b>"`. -/
def export_pdf_total (fs : List FlowerRow) : String :=
  "<b>Tổng: " ++ toString fs.length ++ " sản phẩm</b>"

/-! ### Catalog store and query model

The Supabase table is modelled as a list of `(id, record)` pairs; the
query operators used by `get_flowers` (`ilike`, `eq`, `lte`, `order`,
`range`) are modelled over it. -/

abbrev Store := List (String × FlowerRow)

/-- Case-insensitive substring test, modelling `ilike("%pat%")`. -/
def infixIn (needle : List Char) : List Char → Bool
  | [] => needle.isEmpty
  | c :: t => needle.isPrefixOf (c :: t) || infixIn needle t

def ilike (hay pat : String) : Bool :=
  infixIn pat.toLower.toList hay.toLower.toList

/-- The filter chain of `get_flowers` (source lines 96-99): `search`
(truthy) narrows by substring on `name`, `type` (truthy and not the
sentinel "Tất cả") by equality, `tags` (truthy) by substring on `tags`,
and `low_stock` by `stock <= 10`. -/
def applyFilters (search ty tags : Option String) (low_stock : Bool)
    (rows : List FlowerRow) : List FlowerRow :=
  let r1 := match search with
    | some s => if s = "" then rows else rows.filter (fun f => ilike f.name s)
    | none => rows
  let r2 := match ty with
    | some t =>
      if t = "" ∨ t = "Tất cả" then r1 else r1.filter (fun f => f.type == t)
    | none => r1
  let r3 := match tags with
    | some tg => if tg = "" then r2 else r2.filter (fun f => ilike f.tags tg)
    | none => r2
  if low_stock then r3.filter (fun f => decide (f.stock ≤ 10)) else r3

/-- Insert into a list sorted by `created_at` descending. -/
def insertDesc (r : FlowerRow) : List FlowerRow → List FlowerRow
  | [] => [r]
  | x :: xs =>
    if r.created_at ≤ x.created_at then x :: insertDesc r xs
    else r :: x :: xs

/-- `order("created_at", desc=True)`, modelled as an insertion sort. -/
def sortDesc : List FlowerRow → List FlowerRow
  | [] => []
  | x :: xs => insertDesc x (sortDesc xs)

/-- Source lines 92-101: filter, order by `created_at` descending, page
with `range(skip, skip + limit - 1)` (an inclusive window of `limit`
rows), and return the page together with `count = len(page)`. -/
def get_flowers (rows : List FlowerRow) (search ty tags : Option String)
    (low_stock : Bool) (skip limit : Nat) : List FlowerRow × Nat :=
  let page := ((sortDesc (applyFilters search ty tags low_stock rows)).drop skip).take limit
  (page, page.length)

structure Stats where
  total_flowers : Nat
  total_types : Nat
  total_value : Int
  low_stock_count : Nat
deriving DecidableEq

/-- Source lines 156-162: record count, reference-type count, sum of all
prices, and the count of records with `stock <= 10`. -/
def get_stats (flowers : List FlowerRow) (types : List String) : Stats :=
  { total_flowers := flowers.length
    total_types := types.length
    total_value := (flowers.map (fun f => f.price)).sum
    low_stock_count := (flowers.filter (fun f => decide (f.stock ≤ 10))).length }

/-! ### Mutating handlers

Calls issued against the external services are traced explicitly:
`CatalogCall` for the record store, `StorageCall` for the object store.
Outcomes of object-store calls are supplied as oracle parameters. -/

inductive CatalogCall where
  | insert (id : String)
  | update (id : String)
  | delete (id : String)
deriving DecidableEq

inductive StorageCall where
  | upload (filename : String)
  | remove (filename : String)
deriving DecidableEq

/-- Source lines 71-85: read the file, `resize_image` it, upload under a
fresh name `flower_<hex>.jpg`, return the stripped public URL.  Any
exception (including a resize failure, which happens before the upload
call) is caught and `None` is returned.  `resizeOk` is the outcome of
`resize_image` (`false` = it raised); `uplUrl` is the public URL the
object store would report (`none` = the upload call raised). -/
def upload_image_to_supabase (resizeOk : Bool) (hex : String)
    (uplUrl : Option String) : Option String × List StorageCall :=
  if resizeOk then
    match uplUrl with
    | some u => (some u.trim, [.upload ("flower_" ++ hex ++ ".jpg")])
    | none => (none, [.upload ("flower_" ++ hex ++ ".jpg")])
  else (none, [])

/-- Source lines 104-111: optionally upload the image (only when a file
part with a truthy filename is present), then insert the record; a
`None` upload result is stored as a null `image_url`.  `newId` and
`cts` are the id and `created_at` the store assigns on insert. -/
def create_flower (s : Store) (name : String) (price : Int)
    (ty un : String) (stock : Int) (tags : String) (image : Option String)
    (resizeOk : Bool) (hex : String) (uplUrl : Option String)
    (newId : String) (cts : Nat) :
    FlowerRow × Store × List CatalogCall × List StorageCall :=
  let up :=
    match image with
    | some fname =>
      if fname = "" then (none, []) else upload_image_to_supabase resizeOk hex uplUrl
    | none => (none, [])
  let rec0 : FlowerRow := ⟨name, price, ty, un, stock, tags, up.1, cts⟩
  (rec0, s ++ [(newId, rec0)], [.insert newId], up.2)

/-- The multipart form of the update endpoint: each field is absent
(`none`) or present; `image` carries the filename of the file part. -/
structure UpdatePayload where
  name : Option String
  price : Option Int
  type : Option String
  unit : Option String
  stock : Option Int
  tags : Option String
  image : Option String
deriving DecidableEq

/-- The `data` dict built by `update_flower` (one `none` per absent key). -/
structure UpdateData where
  name : Option String
  price : Option Int
  type : Option String
  unit : Option String
  stock : Option Int
  tags : Option String
  image_url : Option String
deriving DecidableEq

/-- Python truthiness on an optional string: `if s:` keeps only a
present, non-empty value. -/
def strTruthy : Option String → Option String
  | some s => if s = "" then none else some s
  | none => none

/-- Python truthiness on an optional int: `if v:` keeps only a present,
non-zero value. -/
def intTruthy : Option Int → Option Int
  | some v => if v = 0 then none else some v
  | none => none

/-- The `image_url` entry: set only when a file part with a truthy
filename is present AND the upload returned a truthy URL
(`if image and image.filename:` ... `if image_url:`).  `upl` is what
`upload_image_to_supabase` would return when invoked. -/
def uploadedUrl (p : UpdatePayload) (upl : Option String) : Option String :=
  match p.image with
  | some fname => if fname = "" then none else strTruthy upl
  | none => none

/-- Source lines 118-127: `name`, `price`, `type`, `unit` enter `data`
under `if field:` (truthiness); `stock` and `tags` under
`if field is not None`; `image_url` per `uploadedUrl`. -/
def buildUpdateData (p : UpdatePayload) (upl : Option String) : UpdateData :=
  { name := strTruthy p.name
    price := intTruthy p.price
    type := strTruthy p.type
    unit := strTruthy p.unit
    stock := p.stock
    tags := p.tags
    image_url := uploadedUrl p upl }

def UpdateData.isEmpty (d : UpdateData) : Bool :=
  d.name.isNone && d.price.isNone && d.type.isNone && d.unit.isNone &&
  d.stock.isNone && d.tags.isNone && d.image_url.isNone

/-- Applying the `data` dict to one stored record: present keys replace
the field, absent keys leave it unchanged; `created_at` is never in
`data`. -/
def applyUpdate (d : UpdateData) (r : FlowerRow) : FlowerRow :=
  { name := d.name.getD r.name
    price := d.price.getD r.price
    type := d.type.getD r.type
    unit := d.unit.getD r.unit
    stock := d.stock.getD r.stock
    tags := d.tags.getD r.tags
    image_url := match d.image_url with
      | some u => some u
      | none => r.image_url
    created_at := r.created_at }

inductive UpdateResult where
  | ok (rows : List FlowerRow)
  | badRequest
  | notFound
deriving DecidableEq

/-- Source lines 114-131: build `data`; reject with 400 ("No data to
update") when it is empty, before any catalog-store call; otherwise run
`update(data).eq("id", fid)` and answer 404 when it matched no row. -/
def update_flower (s : Store) (fid : String) (p : UpdatePayload)
    (upl : Option String) : UpdateResult × Store × List CatalogCall :=
  let d := buildUpdateData p upl
  if d.isEmpty then (.badRequest, s, [])
  else
    let rows := (s.filter (fun e => e.1 == fid)).map (fun e => applyUpdate d e.2)
    if rows.isEmpty then (.notFound, s, [.update fid])
    else
      (.ok rows,
       s.map (fun e => if e.1 == fid then (e.1, applyUpdate d e.2) else e),
       [.update fid])

/-- The HTTP outcome space of the delete endpoint (a 404 is expressible,
as the update endpoint shows, but the source never produces one). -/
inductive DeleteResult where
  | success (msg : String)
  | notFoundErr
deriving DecidableEq

/-- `url.split("/")[-1]`. -/
def lastSegment (u : String) : String := (u.splitOn "/").getLastD ""

/-- Source lines 135-145: look the record up; when it has a truthy
`image_url`, best-effort remove the blob named by the URL's last path
segment; delete by id; always answer `"Deleted"` (the delete result is
never inspected, so an absent id is not reported). -/
def delete_flower (s : Store) (fid : String) :
    DeleteResult × Store × List CatalogCall × List StorageCall :=
  let found := s.filter (fun e => e.1 == fid)
  let sc :=
    match found.head? with
    | some e =>
      match e.2.image_url with
      | some u => if u = "" then [] else [StorageCall.remove (lastSegment u)]
      | none => []
    | none => []
  (.success "Deleted", s.filter (fun e => !(e.1 == fid)), [.delete fid], sc)

/-! ## Theorems -/

/-! ### Fixed-point blending agrees with exact rounded compositing -/

theorem muldiv255_eq (x y : Nat) (hx : x ≤ 255) (hy : y ≤ 255) :
    muldiv255 x y = roundDiv255 (x * y) := by
  have hb : x * y ≤ 65025 := by
    calc x * y ≤ 255 * 255 := Nat.mul_le_mul hx hy
    _ = 65025 := by norm_num
  unfold muldiv255 roundDiv255
  rw [Nat.shiftRight_eq_div_pow, Nat.shiftRight_eq_div_pow]
  have h256 : (2 : Nat) ^ 8 = 256 := by norm_num
  rw [h256]
  generalize x * y = v at hb ⊢
  omega

theorem blend_white (a c : Nat) (ha : a ≤ 255) (hc : c ≤ 255) :
    blend a 255 c = specCompositeOverWhite a c := by
  unfold blend specCompositeOverWhite
  rw [muldiv255_eq 255 (255 - a) (by omega) (by omega),
      muldiv255_eq c a hc ha]
  unfold roundDiv255
  have hca : c * a ≤ 65025 := by
    calc c * a ≤ 255 * 255 := Nat.mul_le_mul hc ha
    _ = 65025 := by norm_num
  omega

theorem blend_full (c : Nat) (hc : c ≤ 255) : blend 255 255 c = c := by
  rw [blend_white 255 c (by omega) hc]
  unfold specCompositeOverWhite roundDiv255
  omega

theorem pasteOverWhite_spec (p : RGBA) (hp : byte8 p) :
    pasteOverWhite p =
      ⟨specCompositeOverWhite p.a p.r, specCompositeOverWhite p.a p.g,
       specCompositeOverWhite p.a p.b⟩ := by
  obtain ⟨hr, hg, hb, ha⟩ := hp
  unfold pasteOverWhite
  rw [blend_white p.a p.r ha hr, blend_white p.a p.g ha hg,
      blend_white p.a p.b ha hb]

theorem pasteOverWhite_full (p : RGBA) (hp : byte8 p) (ha : p.a = 255) :
    pasteOverWhite p = ⟨p.r, p.g, p.b⟩ := by
  obtain ⟨hr, hg, hb, _⟩ := hp
  unfold pasteOverWhite
  rw [ha, blend_full p.r hr, blend_full p.g hg, blend_full p.b hb]

/-! ### Thumbnail arithmetic -/

theorem roundNear_le (num den bound : Nat) (hden : 0 < den)
    (hnum : num ≤ bound * den) : roundNear num den ≤ bound := by
  unfold roundNear
  have hd := Nat.div_add_mod num den
  have hm : num % den < den := Nat.mod_lt _ hden
  split
  · have h1 : num / den * den ≤ num := Nat.div_mul_le_self num den
    by_contra hcon
    push_neg at hcon
    have h2 : (bound + 1) * den ≤ num / den * den :=
      Nat.mul_le_mul_right den hcon
    have h3 : (bound + 1) * den = bound * den + den := by ring
    linarith
  · next hr =>
    by_contra hcon
    push_neg at hcon
    have hq : bound ≤ num / den := by omega
    have h2 : bound * den ≤ num / den * den := Nat.mul_le_mul_right den hq
    have h5 : num / den * den = den * (num / den) := Nat.mul_comm _ _
    have hrpos : 1 ≤ num % den := by omega
    linarith

theorem roundNear_close (num den : Nat) (hden : 0 < den) :
    roundNear num den * den ≤ num + den ∧
    num ≤ roundNear num den * den + den := by
  unfold roundNear
  have hd := Nat.div_add_mod num den
  have hm : num % den < den := Nat.mod_lt _ hden
  have h1 : num / den * den ≤ num := Nat.div_mul_le_self num den
  have h5 : num / den * den = den * (num / den) := Nat.mul_comm _ _
  have hsucc : (num / den + 1) * den = num / den * den + den := by ring
  split
  · exact ⟨by linarith, by linarith⟩
  · exact ⟨by linarith, by linarith⟩

theorem roundHarm_le (num den bound : Nat) (hden : 0 < den)
    (hnum : num ≤ bound * den) : roundHarm num den ≤ bound := by
  unfold roundHarm
  have hd := Nat.div_add_mod num den
  have hm : num % den < den := Nat.mod_lt _ hden
  have h1 : num / den * den ≤ num := Nat.div_mul_le_self num den
  have h5 : num / den * den = den * (num / den) := Nat.mul_comm _ _
  have hfloor : num / den ≤ bound := by
    by_contra hcon
    push_neg at hcon
    have h2 : (bound + 1) * den ≤ num / den * den :=
      Nat.mul_le_mul_right den hcon
    have h3 : (bound + 1) * den = bound * den + den := by ring
    linarith
  simp only
  split
  · exact hfloor
  · next hr =>
    split
    · exact Nat.zero_le _
    · have hceil : num / den + 1 ≤ bound := by
        by_contra hcon
        push_neg at hcon
        have hq : bound ≤ num / den := by omega
        have h2 : bound * den ≤ num / den * den := Nat.mul_le_mul_right den hq
        have hrpos : 1 ≤ num % den := by omega
        linarith
      split
      · omega
      · exact hceil

theorem roundHarm_close (num den : Nat) (hden : 0 < den) :
    roundHarm num den * den ≤ num + den ∧
    num ≤ roundHarm num den * den + den := by
  unfold roundHarm
  have hd := Nat.div_add_mod num den
  have hm : num % den < den := Nat.mod_lt _ hden
  have h1 : num / den * den ≤ num := Nat.div_mul_le_self num den
  have h5 : num / den * den = den * (num / den) := Nat.mul_comm _ _
  have hsucc : (num / den + 1) * den = num / den * den + den := by ring
  simp only
  split
  · exact ⟨by linarith, by linarith⟩
  · next hr =>
    split
    · next hf0 =>
      rw [hf0] at hd
      exact ⟨by omega, by omega⟩
    · split
      · exact ⟨by linarith, by linarith⟩
      · exact ⟨by linarith, by linarith⟩

theorem thumbnailDims_le (w h : Nat) (hw : 0 < w) (hh : 0 < h) :
    (thumbnailDims w h 1200 1200).1 ≤ 1200 ∧
    (thumbnailDims w h 1200 1200).2 ≤ 1200 := by
  unfold thumbnailDims
  split
  · next hfit => exact ⟨hfit.1, hfit.2⟩
  · next hnofit =>
    split
    · next hcond =>
      refine ⟨Nat.max_le.mpr ⟨?_, by omega⟩, le_refl 1200⟩
      exact roundNear_le (1200 * w) h 1200 hh hcond
    · next hcond =>
      refine ⟨le_refl 1200, Nat.max_le.mpr ⟨?_, by omega⟩⟩
      exact roundHarm_le (1200 * h) w 1200 hw (by omega)

theorem thumbnailDims_eq_of_fit (w h : Nat) (h1 : w ≤ 1200) (h2 : h ≤ 1200) :
    thumbnailDims w h 1200 1200 = (w, h) := by
  unfold thumbnailDims
  rw [if_pos ⟨h1, h2⟩]

theorem thumbnailDims_aspect (w h : Nat) (hw : 0 < w) (hh : 0 < h) :
    (thumbnailDims w h 1200 1200).1 * h ≤
      (thumbnailDims w h 1200 1200).2 * w + max w h ∧
    (thumbnailDims w h 1200 1200).2 * w ≤
      (thumbnailDims w h 1200 1200).1 * h + max w h := by
  unfold thumbnailDims
  split
  · next hfit =>
    simp only
    constructor
    · rw [Nat.mul_comm w h]
      omega
    · rw [Nat.mul_comm w h]
      omega
  · next hnofit =>
    split
    · next hcond =>
      have hwh : w ≤ h := by omega
      have hmax : max w h = h := Nat.max_eq_right hwh
      have hc := roundNear_close (1200 * w) h hh
      simp only [hmax]
      rcases Nat.eq_zero_or_pos (roundNear (1200 * w) h) with h0 | hpos
      · rw [h0] at hc ⊢
        simp only [Nat.max_eq_right (by omega : (0 : Nat) ≤ 1)] at *
        constructor
        · have h1w : 1 * h = h := Nat.one_mul h
          linarith [hc.2]
        · have h1w : 1 * h = h := Nat.one_mul h
          linarith [hc.2]
      · have hmax1 : max (roundNear (1200 * w) h) 1 = roundNear (1200 * w) h :=
          Nat.max_eq_left hpos
        rw [hmax1]
        exact ⟨hc.1, hc.2⟩
    · next hcond =>
      have hwh : h ≤ w := by omega
      have hmax : max w h = w := Nat.max_eq_left hwh
      have hc := roundHarm_close (1200 * h) w hw
      simp only [hmax]
      rcases Nat.eq_zero_or_pos (roundHarm (1200 * h) w) with h0 | hpos
      · rw [h0] at hc ⊢
        simp only [Nat.max_eq_right (by omega : (0 : Nat) ≤ 1)] at *
        constructor
        · have h1w : 1 * w = w := Nat.one_mul w
          linarith [hc.2]
        · have h1w : 1 * w = w := Nat.one_mul w
          linarith [hc.2]
      · have hmax1 : max (roundHarm (1200 * h) w) 1 = roundHarm (1200 * h) w :=
          Nat.max_eq_left hpos
        rw [hmax1]
        exact ⟨hc.2, hc.1⟩

/-! ### Flattening -/

theorem flatten_width (img : PILImage) : (flatten img).width = img.width := by
  cases img <;> rfl

theorem flatten_height (img : PILImage) : (flatten img).height = img.height := by
  cases img <;> rfl

theorem flatten_no_alpha (img : PILImage) :
    Mode.hasAlpha (flatten img).mode = false := by
  cases img <;> rfl

theorem flatten_writable_iff (img : PILImage) :
    jpegWritable (flatten img).mode = true ↔
      img.mode ≠ Mode.I ∧ img.mode ≠ Mode.F := by
  cases img <;> simp [flatten, PILImage.mode, jpegWritable]

/-- C1 counterexample: a decodable 10 × 10 mode-`I` image (what a
16-bit grayscale PNG decodes to) is not in the flattening branch and is
not JPEG-writable, so `save(format='JPEG')` raises and `resize_image`
returns no JPEG bytes — refuting the claim that every decodable input
yields JPEG-encoded bytes. -/
theorem spec_c1_counterexample :
    0 < (PILImage.i 10 10 (fun _ _ => 0)).width ∧
    0 < (PILImage.i 10 10 (fun _ _ => 0)).height ∧
    resize_image (PILImage.i 10 10 (fun _ _ => 0)) = Except.error Mode.I ∧
    (resize_image (PILImage.i 10 10 (fun _ _ => 0))).toOption = none := by
  refine ⟨by decide, by decide, rfl, rfl⟩

/-- C1 (amended): `resize_image` returns JPEG bytes exactly for the
decoded images whose mode after flattening is JPEG-writable — i.e. every
mode except the integer/float grayscale modes `I` and `F` — and for
those it produces an opaque, JPEG-writable image whose width and height
are both at most 1200, with the aspect ratio preserved up to the
one-pixel rounding of `thumbnail` (the cross products of old and new
dimensions differ by at most `max width height`) and with unchanged
dimensions when the input already fits in 1200 × 1200 (no upscaling);
for an `I` or `F` input the JPEG encoder raises and the failure
propagates to the caller (no bytes are returned). -/
theorem spec_c1_normalizer_amended (img : PILImage)
    (hw : 0 < img.width) (hh : 0 < img.height) :
    (jpegWritable (flatten img).mode = true ↔
      img.mode ≠ Mode.I ∧ img.mode ≠ Mode.F) ∧
    (jpegWritable (flatten img).mode = true →
      ∃ m : JpegMeta, resize_image img = Except.ok m ∧
        Mode.hasAlpha m.mode = false ∧ jpegWritable m.mode = true ∧
        m.width ≤ 1200 ∧ m.height ≤ 1200 ∧
        (img.width ≤ 1200 → img.height ≤ 1200 →
          m.width = img.width ∧ m.height = img.height) ∧
        m.width * img.height ≤ m.height * img.width + max img.width img.height ∧
        m.height * img.width ≤ m.width * img.height + max img.width img.height) ∧
    (jpegWritable (flatten img).mode = false →
      resize_image img = Except.error (flatten img).mode) := by
  have hfw := flatten_width img
  have hfh := flatten_height img
  refine ⟨flatten_writable_iff img, ?_, ?_⟩
  · intro hwr
    refine ⟨⟨(flatten img).mode,
      (thumbnailDims (flatten img).width (flatten img).height 1200 1200).1,
      (thumbnailDims (flatten img).width (flatten img).height 1200 1200).2⟩,
      ?_, flatten_no_alpha img, hwr, ?_, ?_, ?_, ?_, ?_⟩
    · simp only [resize_image]
      rw [if_pos hwr]
    · rw [hfw, hfh]
      exact (thumbnailDims_le img.width img.height hw hh).1
    · rw [hfw, hfh]
      exact (thumbnailDims_le img.width img.height hw hh).2
    · intro h1 h2
      rw [hfw, hfh, thumbnailDims_eq_of_fit img.width img.height h1 h2]
      exact ⟨rfl, rfl⟩
    · rw [hfw, hfh]
      exact (thumbnailDims_aspect img.width img.height hw hh).1
    · rw [hfw, hfh]
      exact (thumbnailDims_aspect img.width img.height hw hh).2
  · intro hwr
    simp only [resize_image]
    rw [if_neg (by simp [hwr])]

/-- Witness for C1 (amended) at a concrete 2000 × 500 RGBA image: the
hypotheses hold, the flattened mode is JPEG-writable, and the normalizer
yields an opaque JPEG of size 1200 × 300. -/
theorem spec_c1_witness :
    0 < (PILImage.rgba 2000 500 (fun _ _ => ⟨10, 20, 30, 255⟩)).width ∧
    0 < (PILImage.rgba 2000 500 (fun _ _ => ⟨10, 20, 30, 255⟩)).height ∧
    jpegWritable (flatten (PILImage.rgba 2000 500 (fun _ _ => ⟨10, 20, 30, 255⟩))).mode = true ∧
    (∃ m : JpegMeta,
      resize_image (PILImage.rgba 2000 500 (fun _ _ => ⟨10, 20, 30, 255⟩)) = Except.ok m ∧
      Mode.hasAlpha m.mode = false ∧ jpegWritable m.mode = true ∧
      m.width ≤ 1200 ∧ m.height ≤ 1200 ∧
      ((PILImage.rgba 2000 500 (fun _ _ => ⟨10, 20, 30, 255⟩)).width ≤ 1200 →
       (PILImage.rgba 2000 500 (fun _ _ => ⟨10, 20, 30, 255⟩)).height ≤ 1200 →
        m.width = (PILImage.rgba 2000 500 (fun _ _ => ⟨10, 20, 30, 255⟩)).width ∧
        m.height = (PILImage.rgba 2000 500 (fun _ _ => ⟨10, 20, 30, 255⟩)).height) ∧
      m.width * (PILImage.rgba 2000 500 (fun _ _ => ⟨10, 20, 30, 255⟩)).height ≤
        m.height * (PILImage.rgba 2000 500 (fun _ _ => ⟨10, 20, 30, 255⟩)).width +
          max (PILImage.rgba 2000 500 (fun _ _ => ⟨10, 20, 30, 255⟩)).width
            (PILImage.rgba 2000 500 (fun _ _ => ⟨10, 20, 30, 255⟩)).height ∧
      m.height * (PILImage.rgba 2000 500 (fun _ _ => ⟨10, 20, 30, 255⟩)).width ≤
        m.width * (PILImage.rgba 2000 500 (fun _ _ => ⟨10, 20, 30, 255⟩)).height +
          max (PILImage.rgba 2000 500 (fun _ _ => ⟨10, 20, 30, 255⟩)).width
            (PILImage.rgba 2000 500 (fun _ _ => ⟨10, 20, 30, 255⟩)).height) :=
  ⟨by decide, by decide, by decide,
   (spec_c1_normalizer_amended (PILImage.rgba 2000 500 (fun _ _ => ⟨10, 20, 30, 255⟩))
     (by decide) (by decide)).2.1 (by decide)⟩


/-- C4 counterexample: an `LA`-mode image (which carries an alpha
channel) with a partially transparent pixel (luminance 0, alpha 128) is
NOT alpha-composited over white: `flatten` pastes it with `mask=None`,
yielding the gray pixel `(0, 0, 0)`, whereas the alpha-composite over
pure white of that pixel is `(127, 127, 127)`. -/
theorem spec_c4_counterexample :
    pxAt (flatten (PILImage.la 1 1 (fun _ _ => (0, 128)))) 0 0 =
      some ⟨0, 0, 0⟩ ∧
    specCompositeOverWhite 128 0 = 127 ∧
    pxAt (flatten (PILImage.la 1 1 (fun _ _ => (0, 128)))) 0 0 ≠
      some ⟨specCompositeOverWhite 128 0, specCompositeOverWhite 128 0,
            specCompositeOverWhite 128 0⟩ := by
  refine ⟨rfl, by decide, ?_⟩
  decide

/-- C4 (amended): `flatten` keeps the pixel dimensions and produces an
opaque white-backed image for every transparency- or palette-carrying
mode, but only `RGBA` inputs (and `P` inputs, after palette expansion to
`RGBA`) are alpha-composited over pure white — each such pixel equals
the exactly rounded composite, and an already fully opaque pixel is left
unchanged — while `LA` inputs are pasted directly with their alpha
channel ignored (luminance replicated to gray). -/
theorem spec_c4_flatten_amended (w h x y : Nat)
    (px : Nat → Nat → RGBA) (pal : Nat → RGBA)
    (pxp : Nat → Nat → Nat) (pxl : Nat → Nat → Nat × Nat)
    (hpx : byte8 (px x y)) (hpal : byte8 (pal (pxp x y))) :
    (flatten (PILImage.rgba w h px)).width = w ∧
    (flatten (PILImage.rgba w h px)).height = h ∧
    (flatten (PILImage.la w h pxl)).width = w ∧
    (flatten (PILImage.la w h pxl)).height = h ∧
    (flatten (PILImage.p w h pal pxp)).width = w ∧
    (flatten (PILImage.p w h pal pxp)).height = h ∧
    pxAt (flatten (PILImage.rgba w h px)) x y =
      some ⟨specCompositeOverWhite (px x y).a (px x y).r,
            specCompositeOverWhite (px x y).a (px x y).g,
            specCompositeOverWhite (px x y).a (px x y).b⟩ ∧
    ((px x y).a = 255 →
      pxAt (flatten (PILImage.rgba w h px)) x y =
        some ⟨(px x y).r, (px x y).g, (px x y).b⟩) ∧
    pxAt (flatten (PILImage.p w h pal pxp)) x y =
      some ⟨specCompositeOverWhite (pal (pxp x y)).a (pal (pxp x y)).r,
            specCompositeOverWhite (pal (pxp x y)).a (pal (pxp x y)).g,
            specCompositeOverWhite (pal (pxp x y)).a (pal (pxp x y)).b⟩ ∧
    pxAt (flatten (PILImage.la w h pxl)) x y = some (laToRGB (pxl x y).1) := by
  refine ⟨rfl, rfl, rfl, rfl, rfl, rfl, ?_, ?_, ?_, rfl⟩
  · show some (pasteOverWhite (px x y)) = _
    rw [pasteOverWhite_spec (px x y) hpx]
  · intro ha
    show some (pasteOverWhite (px x y)) = _
    rw [pasteOverWhite_full (px x y) hpx ha]
  · show some (pasteOverWhite (pal (pxp x y))) = _
    rw [pasteOverWhite_spec (pal (pxp x y)) hpal]

/-- Witness for C4 (amended) at a concrete half-transparent RGBA pixel
`(10, 20, 30, 128)` and palette entry `(200, 100, 50, 64)`. -/
theorem spec_c4_witness :
    byte8 ((fun _ _ : Nat => RGBA.mk 10 20 30 128) 0 0) ∧
    byte8 ((fun _ : Nat => RGBA.mk 200 100 50 64) ((fun _ _ : Nat => 0) 0 0)) ∧
    pxAt (flatten (PILImage.rgba 2 2 (fun _ _ => RGBA.mk 10 20 30 128))) 0 0 =
      some ⟨specCompositeOverWhite 128 10, specCompositeOverWhite 128 20,
            specCompositeOverWhite 128 30⟩ := by
  refine ⟨by decide, by decide, ?_⟩
  have h := spec_c4_flatten_amended 2 2 0 0
    (fun _ _ => RGBA.mk 10 20 30 128) (fun _ => RGBA.mk 200 100 50 64)
    (fun _ _ => 0) (fun _ _ => (0, 128)) (by decide) (by decide)
  exact h.2.2.2.2.2.2.1

/-! ### Report rows -/

theorem excelRowsFrom_length (fs : List FlowerRow) :
    ∀ n, (excelRowsFrom n fs).length = fs.length := by
  induction fs with
  | nil => intro n; rfl
  | cons f fs ih =>
    intro n
    simp [excelRowsFrom, ih]

theorem excelRowsFrom_getElem? (fs : List FlowerRow) :
    ∀ n k, (excelRowsFrom n fs)[k]? =
      (fs[k]?).map (fun f => mkExcelRow (n + k) f) := by
  induction fs with
  | nil => intro n k; simp [excelRowsFrom]
  | cons f fs ih =>
    intro n k
    cases k with
    | zero => simp [excelRowsFrom]
    | succ k =>
      simp only [excelRowsFrom, List.getElem?_cons_succ, ih (n + 1) k]
      have : n + 1 + k = n + (k + 1) := by omega
      rw [this]

theorem pdfRowsFrom_length (fs : List FlowerRow) :
    ∀ n, (pdfRowsFrom n fs).length = fs.length := by
  induction fs with
  | nil => intro n; rfl
  | cons f fs ih =>
    intro n
    simp [pdfRowsFrom, ih]

theorem pdfRowsFrom_getElem? (fs : List FlowerRow) :
    ∀ n k, (pdfRowsFrom n fs)[k]? =
      (fs[k]?).map (fun f => mkPdfRow (n + k) f) := by
  induction fs with
  | nil => intro n k; simp [pdfRowsFrom]
  | cons f fs ih =>
    intro n k
    cases k with
    | zero => simp [pdfRowsFrom]
    | succ k =>
      simp only [pdfRowsFrom, List.getElem?_cons_succ, ih (n + 1) k]
      have : n + 1 + k = n + (k + 1) := by omega
      rw [this]

/-- C2: each report generator emits exactly one data row per input
record, in input order, carrying the 1-based row index in the first
column; on the empty record list the spreadsheet grid is the header row
alone, the PDF table is its header row alone, and the PDF closing
paragraph reads "Tổng: 0 sản phẩm" (inside bold markup). -/
theorem spec_c2_report_rows (fs : List FlowerRow) (k : Nat) (f : FlowerRow)
    (hk : fs[k]? = some f) :
    (export_excel_rows fs).length = fs.length + 1 ∧
    (export_excel_rows fs)[k + 1]? = some (mkExcelRow (k + 1) f) ∧
    (mkExcelRow (k + 1) f)[0]? = some (Cell.num (k + 1)) ∧
    (export_pdf_table fs).length = fs.length + 1 ∧
    (export_pdf_table fs)[k + 1]? = some (mkPdfRow (k + 1) f) ∧
    (mkPdfRow (k + 1) f)[0]? = some (toString (k + 1)) ∧
    export_excel_rows [] = [excelHeaders] ∧
    export_pdf_table [] = [pdfHeaders] ∧
    export_pdf_total [] = "<b>" ++ "Tổng: 0 sản phẩm" ++ "</b>" := by
  refine ⟨?_, ?_, rfl, ?_, ?_, rfl, rfl, rfl, ?_⟩
  · simp [export_excel_rows, excelRowsFrom_length]
  · rw [show export_excel_rows fs = excelHeaders :: excelRowsFrom 1 fs from rfl,
      List.getElem?_cons_succ, excelRowsFrom_getElem? fs 1 k, hk, Nat.add_comm 1 k]
    rfl
  · simp [export_pdf_table, pdfRowsFrom_length]
  · rw [show export_pdf_table fs = pdfHeaders :: pdfRowsFrom 1 fs from rfl,
      List.getElem?_cons_succ, pdfRowsFrom_getElem? fs 1 k, hk, Nat.add_comm 1 k]
    rfl
  · decide

/-- Witness for C2 at the one-record list containing the end-to-end
scenario record of the spec (name "Rose", price 50000, stock 5). -/
theorem spec_c2_witness :
    ([⟨"Rose", 50000, "Red", "bunch", 5, "", none, 7⟩] :
        List FlowerRow)[0]? = some ⟨"Rose", 50000, "Red", "bunch", 5, "", none, 7⟩ ∧
    (export_excel_rows [⟨"Rose", 50000, "Red", "bunch", 5, "", none, 7⟩])[0 + 1]? =
      some (mkExcelRow (0 + 1) ⟨"Rose", 50000, "Red", "bunch", 5, "", none, 7⟩) := by
  refine ⟨by decide, ?_⟩
  exact (spec_c2_report_rows [⟨"Rose", 50000, "Red", "bunch", 5, "", none, 7⟩] 0
    ⟨"Rose", 50000, "Red", "bunch", 5, "", none, 7⟩ (by decide)).2.1

/-- C3: in every PDF data row the Tags cell is the first 30 characters
of the record's tag string (so a 45-character tag renders as exactly its
first 30 characters) and the price cell carries the thousands-separated
rendering (e.g. 50000 renders as "50.000"), whereas the spreadsheet row
carries the full untruncated tag string. -/
theorem spec_c3_pdf_truncation (i : Nat) (f : FlowerRow)
    (h45 : f.tags.length = 45) :
    (mkPdfRow i f)[6]? = some (f.tags.take 30) ∧
    (f.tags.take 30).length = 30 ∧
    (mkPdfRow i f)[2]? = some (formatPricePdf f.price) ∧
    formatPricePdf 50000 = "50.000" ∧
    (mkExcelRow i f)[6]? = some (Cell.str f.tags) := by
  refine ⟨?_, ?_, ?_, ?_, ?_⟩
  · simp [mkPdfRow]
  · have hdata : f.tags.data.length = 45 := h45
    rw [String.take_eq]
    show (f.tags.data.take 30).length = 30
    rw [List.length_take, hdata]
    decide
  · simp [mkPdfRow]
  · decide
  · simp [mkExcelRow]

/-- Witness for C3 at a record whose tag string has 45 characters. -/
theorem spec_c3_witness :
    (FlowerRow.mk "Rose" 50000 "Red" "bunch" 5
        "tag-tag-tag-tag-tag-tag-tag-tag-tag-tag-tag-t" none 7).tags.length = 45 ∧
    ((FlowerRow.mk "Rose" 50000 "Red" "bunch" 5
        "tag-tag-tag-tag-tag-tag-tag-tag-tag-tag-tag-t" none 7).tags.take 30).length = 30 := by
  refine ⟨by decide, ?_⟩
  exact (spec_c3_pdf_truncation 1
    (FlowerRow.mk "Rose" 50000 "Red" "bunch" 5
      "tag-tag-tag-tag-tag-tag-tag-tag-tag-tag-tag-t" none 7) (by decide)).2.1

/-! ### Query model -/

theorem insertDesc_perm (r : FlowerRow) (l : List FlowerRow) :
    (insertDesc r l).Perm (r :: l) := by
  induction l with
  | nil => exact List.Perm.refl _
  | cons x xs ih =>
    unfold insertDesc
    split
    · exact (ih.cons x).trans (List.Perm.swap r x xs)
    · exact List.Perm.refl _

theorem sortDesc_perm (l : List FlowerRow) : (sortDesc l).Perm l := by
  induction l with
  | nil => exact List.Perm.refl _
  | cons x xs ih =>
    exact (insertDesc_perm x (sortDesc xs)).trans (ih.cons x)

/-- C8: the low-stock predicate is the inclusive threshold `stock ≤ 10`:
under the list endpoint's `low_stock` filter a record with stock 10 is
returned (whenever the store fits in the default page) and a record with
stock 11 never is, and the stats endpoint's low-stock count counts a
stock-10 record but not a stock-11 record. -/
theorem spec_c8_low_stock (store : List FlowerRow) (ts : List String)
    (r10 r11 : FlowerRow)
    (h10 : r10.stock = 10) (h11 : r11.stock = 11)
    (hm10 : r10 ∈ store) (_hm11 : r11 ∈ store)
    (hlen : store.length ≤ 100) :
    r10 ∈ (get_flowers store none none none true 0 100).1 ∧
    r11 ∉ (get_flowers store none none none true 0 100).1 ∧
    (get_stats (r10 :: store) ts).low_stock_count =
      (get_stats store ts).low_stock_count + 1 ∧
    (get_stats (r11 :: store) ts).low_stock_count =
      (get_stats store ts).low_stock_count := by
  have hpage : (get_flowers store none none none true 0 100).1 =
      sortDesc (store.filter (fun f => decide (f.stock ≤ 10))) := by
    show ((sortDesc (applyFilters none none none true store)).drop 0).take 100 = _
    have hfil : applyFilters none none none true store =
        store.filter (fun f => decide (f.stock ≤ 10)) := rfl
    rw [hfil, List.drop_zero]
    apply List.take_of_length_le
    calc (sortDesc (store.filter (fun f => decide (f.stock ≤ 10)))).length
        = (store.filter (fun f => decide (f.stock ≤ 10))).length :=
          (sortDesc_perm _).length_eq
      _ ≤ store.length := List.length_filter_le _ _
      _ ≤ 100 := hlen
  refine ⟨?_, ?_, ?_, ?_⟩
  · rw [hpage]
    exact ((sortDesc_perm _).mem_iff).mpr
      (List.mem_filter.mpr ⟨hm10, by simp [h10]⟩)
  · rw [hpage]
    intro hmem
    have hp := (List.mem_filter.mp (((sortDesc_perm _).mem_iff).mp hmem)).2
    rw [h11] at hp
    simp at hp
  · simp [get_stats, List.filter_cons, h10]
  · simp [get_stats, List.filter_cons, h11]

/-- Witness for C8 at the concrete two-record store with stocks 10
and 11. -/
theorem spec_c8_witness :
    ((⟨"A", 1, "t", "u", 10, "", none, 2⟩ : FlowerRow).stock = 10 ∧
     (⟨"B", 2, "t", "u", 11, "", none, 1⟩ : FlowerRow).stock = 11 ∧
     (⟨"A", 1, "t", "u", 10, "", none, 2⟩ : FlowerRow) ∈
       ([⟨"A", 1, "t", "u", 10, "", none, 2⟩, ⟨"B", 2, "t", "u", 11, "", none, 1⟩] :
         List FlowerRow) ∧
     (⟨"B", 2, "t", "u", 11, "", none, 1⟩ : FlowerRow) ∈
       ([⟨"A", 1, "t", "u", 10, "", none, 2⟩, ⟨"B", 2, "t", "u", 11, "", none, 1⟩] :
         List FlowerRow) ∧
     ([⟨"A", 1, "t", "u", 10, "", none, 2⟩, ⟨"B", 2, "t", "u", 11, "", none, 1⟩] :
         List FlowerRow).length ≤ 100) ∧
    (⟨"A", 1, "t", "u", 10, "", none, 2⟩ : FlowerRow) ∈
      (get_flowers [⟨"A", 1, "t", "u", 10, "", none, 2⟩, ⟨"B", 2, "t", "u", 11, "", none, 1⟩]
        none none none true 0 100).1 :=
  ⟨⟨by decide, by decide, by decide, by decide, by decide⟩,
   (spec_c8_low_stock
     [⟨"A", 1, "t", "u", 10, "", none, 2⟩, ⟨"B", 2, "t", "u", 11, "", none, 1⟩] []
     ⟨"A", 1, "t", "u", 10, "", none, 2⟩ ⟨"B", 2, "t", "u", 11, "", none, 1⟩
     (by decide) (by decide) (by decide) (by decide) (by decide)).1⟩

/-! ### Update merge rule helpers -/

theorem strTruthy_getD (o : Option String) (d : String) :
    (strTruthy o).getD d = if o.getD "" = "" then d else o.getD "" := by
  cases o with
  | none => rfl
  | some s =>
    by_cases hs : s = ""
    · simp [strTruthy, hs]
    · simp [strTruthy, hs]

theorem intTruthy_getD (o : Option Int) (d : Int) :
    (intTruthy o).getD d = if o.getD 0 = 0 then d else o.getD 0 := by
  cases o with
  | none => rfl
  | some v =>
    by_cases hv : v = 0
    · simp [intTruthy, hv]
    · simp [intTruthy, hv]

theorem uploadedUrl_eq (p : UpdatePayload) (upl : Option String) :
    uploadedUrl p upl =
      (if p.image.getD "" ≠ "" ∧ upl.getD "" ≠ ""
        then some (upl.getD "") else none) := by
  unfold uploadedUrl
  cases himg : p.image with
  | none => simp
  | some fname =>
    by_cases hf : fname = ""
    · simp [hf]
    · cases upl with
      | none => simp [hf, strTruthy]
      | some u =>
        by_cases hu : u = ""
        · simp [hf, hu, strTruthy]
        · simp [hf, hu, strTruthy]

/-- C5: an update request carrying no fields and no image is rejected
with the validation error before any catalog-store call: the result is
the 400 response, the stored state is unchanged, and the catalog-call
trace is empty. -/
theorem spec_c5_empty_update (s : Store) (fid : String) (upl : Option String) :
    update_flower s fid ⟨none, none, none, none, none, none, none⟩ upl =
      (UpdateResult.badRequest, s, []) := rfl

/-- C6 counterexample: an update carrying only `price = 0` does NOT
replace the stored price — `if price:` treats 0 as falsy, the `data`
dict stays empty, and the request is rejected with the empty-update
error, leaving the store unchanged (price stays 50000, not 0). -/
theorem spec_c6_counterexample :
    (update_flower [("f1", ⟨"Rose", 50000, "Red", "bunch", 5, "", none, 0⟩)] "f1"
        ⟨none, some 0, none, none, none, none, none⟩ none).2.1 =
      [("f1", ⟨"Rose", 50000, "Red", "bunch", 5, "", none, 0⟩)] ∧
    (update_flower [("f1", ⟨"Rose", 50000, "Red", "bunch", 5, "", none, 0⟩)] "f1"
        ⟨none, some 0, none, none, none, none, none⟩ none).1 =
      UpdateResult.badRequest ∧
    (update_flower [("f1", ⟨"Rose", 50000, "Red", "bunch", 5, "", none, 0⟩)] "f1"
        ⟨none, some 0, none, none, none, none, none⟩ none).2.1 ≠
      [("f1", ⟨"Rose", 0, "Red", "bunch", 5, "", none, 0⟩)] := by
  refine ⟨by decide, by decide, by decide⟩

/-- C6 (amended): for a non-empty update payload, every record whose id
matches is replaced by the merged record and all others are untouched;
the merge rule is: `name`, `price`, `type`, `unit` are replaced only
when present AND truthy (non-empty string, non-zero number — a present
price 0 or empty-string name is ignored), `stock` and `tags` are
replaced whenever present (0 and "" included), `image_url` is replaced
only when an image file with a truthy filename was supplied and the
upload returned a truthy URL, and `created_at` is never touched. -/
theorem spec_c6_update_merge (s : Store) (fid : String) (p : UpdatePayload)
    (upl : Option String) (r : FlowerRow)
    (hne : (buildUpdateData p upl).isEmpty = false) :
    (update_flower s fid p upl).2.1 =
      s.map (fun e =>
        if e.1 == fid then (e.1, applyUpdate (buildUpdateData p upl) e.2) else e) ∧
    (applyUpdate (buildUpdateData p upl) r).name =
      (if p.name.getD "" = "" then r.name else p.name.getD "") ∧
    (applyUpdate (buildUpdateData p upl) r).price =
      (if p.price.getD 0 = 0 then r.price else p.price.getD 0) ∧
    (applyUpdate (buildUpdateData p upl) r).type =
      (if p.type.getD "" = "" then r.type else p.type.getD "") ∧
    (applyUpdate (buildUpdateData p upl) r).unit =
      (if p.unit.getD "" = "" then r.unit else p.unit.getD "") ∧
    (applyUpdate (buildUpdateData p upl) r).stock = p.stock.getD r.stock ∧
    (applyUpdate (buildUpdateData p upl) r).tags = p.tags.getD r.tags ∧
    (applyUpdate (buildUpdateData p upl) r).image_url =
      (if p.image.getD "" ≠ "" ∧ upl.getD "" ≠ ""
        then some (upl.getD "") else r.image_url) ∧
    (applyUpdate (buildUpdateData p upl) r).created_at = r.created_at := by
  refine ⟨?_, strTruthy_getD p.name r.name, intTruthy_getD p.price r.price,
    strTruthy_getD p.type r.type, strTruthy_getD p.unit r.unit, rfl, rfl, ?_, rfl⟩
  · simp only [update_flower, hne, Bool.false_eq_true, if_false]
    split
    · next hrows =>
      have hfil : s.filter (fun e => e.1 == fid) = [] := by
        have hmap := List.isEmpty_iff.mp hrows
        exact List.map_eq_nil_iff.mp hmap
      have hfalse : ∀ e ∈ s, (e.1 == fid) = false := by
        intro e he
        by_contra hcon
        have hmem : e ∈ s.filter (fun e => e.1 == fid) :=
          List.mem_filter.mpr ⟨he, by revert hcon; cases e.1 == fid <;> simp⟩
        rw [hfil] at hmem
        cases hmem
      have hmap : s.map (fun e =>
          if e.1 == fid then (e.1, applyUpdate (buildUpdateData p upl) e.2) else e) =
          s.map id :=
        List.map_congr_left (fun e he => by rw [hfalse e he]; rfl)
      rw [hmap, List.map_id]
    · rfl
  · show (match uploadedUrl p upl with
      | some u => some u
      | none => r.image_url) = _
    rw [uploadedUrl_eq p upl]
    by_cases hc : p.image.getD "" ≠ "" ∧ upl.getD "" ≠ ""
    · rw [if_pos hc, if_pos hc]
    · rw [if_neg hc, if_neg hc]

/-- Witness for C6 (amended) at a concrete payload replacing `stock`
with 0 and leaving a falsy `price = 0` untouched. -/
theorem spec_c6_witness :
    (buildUpdateData ⟨none, some 0, none, none, some 0, none, none⟩ none).isEmpty = false ∧
    (applyUpdate
      (buildUpdateData ⟨none, some 0, none, none, some 0, none, none⟩ none)
      ⟨"Rose", 50000, "Red", "bunch", 5, "", none, 0⟩).stock =
        (some (0 : Int)).getD (⟨"Rose", 50000, "Red", "bunch", 5, "", none, 0⟩ : FlowerRow).stock ∧
    (applyUpdate
      (buildUpdateData ⟨none, some 0, none, none, some 0, none, none⟩ none)
      ⟨"Rose", 50000, "Red", "bunch", 5, "", none, 0⟩).price =
        (if (some (0 : Int)).getD 0 = 0
          then (⟨"Rose", 50000, "Red", "bunch", 5, "", none, 0⟩ : FlowerRow).price
          else (some (0 : Int)).getD 0) :=
  ⟨by decide,
   (spec_c6_update_merge [] "f1" ⟨none, some 0, none, none, some 0, none, none⟩ none
     ⟨"Rose", 50000, "Red", "bunch", 5, "", none, 0⟩ (by decide)).2.2.2.2.2.1,
   (spec_c6_update_merge [] "f1" ⟨none, some 0, none, none, some 0, none, none⟩ none
     ⟨"Rose", 50000, "Red", "bunch", 5, "", none, 0⟩ (by decide)).2.2.1⟩

/-- C7 counterexample: deleting an id that is absent from the store does
NOT yield a not-found error — the handler reports the success message
"Deleted" (the delete result is never inspected). -/
theorem spec_c7_counterexample :
    (delete_flower [] "missing").1 = DeleteResult.success "Deleted" ∧
    (delete_flower [] "missing").1 ≠ DeleteResult.notFoundErr ∧
    (delete_flower [] "missing").2.1 = [] := by
  refine ⟨by decide, by decide, by decide⟩

/-- C7 (amended): when the target id is absent, a non-empty update is
answered with the distinct not-found error and leaves the store
unchanged, but delete always reports success ("Deleted"), for any store
and id — the source never produces a not-found error on delete. -/
theorem spec_c7_notfound_amended (s : Store) (fid : String) (p : UpdatePayload)
    (upl : Option String)
    (habs : ∀ e ∈ s, e.1 ≠ fid)
    (hne : (buildUpdateData p upl).isEmpty = false) :
    (update_flower s fid p upl).1 = UpdateResult.notFound ∧
    (update_flower s fid p upl).2.1 = s ∧
    ∀ (s2 : Store) (fid2 : String),
      (delete_flower s2 fid2).1 = DeleteResult.success "Deleted" := by
  have hfil : s.filter (fun e => e.1 == fid) = [] :=
    List.filter_eq_nil_iff.mpr (fun e he => by simp [habs e he])
  refine ⟨?_, ?_, fun s2 fid2 => rfl⟩
  · simp [update_flower, hne, hfil]
  · simp [update_flower, hne, hfil]

/-- Witness for C7 (amended) at a one-record store and a foreign id. -/
theorem spec_c7_witness :
    (∀ e ∈ ([("a1", ⟨"Rose", 50000, "Red", "bunch", 5, "", none, 0⟩)] : Store),
      e.1 ≠ "zz") ∧
    (buildUpdateData ⟨none, none, none, none, some 3, none, none⟩ none).isEmpty = false ∧
    (update_flower [("a1", ⟨"Rose", 50000, "Red", "bunch", 5, "", none, 0⟩)] "zz"
      ⟨none, none, none, none, some 3, none, none⟩ none).1 = UpdateResult.notFound :=
  ⟨by decide, by decide,
   (spec_c7_notfound_amended [("a1", ⟨"Rose", 50000, "Red", "bunch", 5, "", none, 0⟩)]
     "zz" ⟨none, none, none, none, some 3, none, none⟩ none
     (by decide) (by decide)).1⟩

/-- C9: image failures are non-fatal for record creation.  When
normalization fails (`resizeOk = false`) the record is still inserted
with a null `image_url` and no object-store upload is attempted; when
normalization succeeds but the upload fails the record is likewise
inserted with a null `image_url`, the upload having been attempted. -/
theorem spec_c9_create_nonfatal (s : Store) (nm : String) (pr : Int)
    (ty un : String) (st : Int) (tg : String) (fname hex : String)
    (uplAny : Option String) (newId : String) (cts : Nat)
    (hf : fname ≠ "") :
    create_flower s nm pr ty un st tg (some fname) false hex uplAny newId cts =
      (⟨nm, pr, ty, un, st, tg, none, cts⟩,
       s ++ [(newId, ⟨nm, pr, ty, un, st, tg, none, cts⟩)],
       [CatalogCall.insert newId], []) ∧
    create_flower s nm pr ty un st tg (some fname) true hex none newId cts =
      (⟨nm, pr, ty, un, st, tg, none, cts⟩,
       s ++ [(newId, ⟨nm, pr, ty, un, st, tg, none, cts⟩)],
       [CatalogCall.insert newId],
       [StorageCall.upload ("flower_" ++ hex ++ ".jpg")]) := by
  constructor
  · simp [create_flower, upload_image_to_supabase, hf]
  · simp [create_flower, upload_image_to_supabase, hf]

/-- Witness for C9 at a concrete creation request. -/
theorem spec_c9_witness :
    ("rose.png" : String) ≠ "" ∧
    create_flower [] "Rose" 50000 "Red" "bunch" 5 "" (some "rose.png")
        false "abc" (some "ignored") "id1" 9 =
      (⟨"Rose", 50000, "Red", "bunch", 5, "", none, 9⟩,
       [("id1", ⟨"Rose", 50000, "Red", "bunch", 5, "", none, 9⟩)],
       [CatalogCall.insert "id1"], []) :=
  ⟨by decide,
   (spec_c9_create_nonfatal [] "Rose" 50000 "Red" "bunch" 5 "" "rose.png" "abc"
     (some "ignored") "id1" 9 (by decide)).1⟩

/-- C10: an update that supplies no form fields and only an image whose
upload fails (no URL returned) is rejected with the empty-update
validation error, the store is unchanged, and no catalog-store call is
made. -/
theorem spec_c10_image_only_update (s : Store) (fid : String) (fname : String)
    (hf : fname ≠ "") :
    update_flower s fid ⟨none, none, none, none, none, none, some fname⟩ none =
      (UpdateResult.badRequest, s, []) := by
  simp [update_flower, buildUpdateData, uploadedUrl, strTruthy, intTruthy,
    UpdateData.isEmpty, hf]

/-- Witness for C10 at a concrete image-only request whose upload
failed. -/
theorem spec_c10_witness :
    ("rose.png" : String) ≠ "" ∧
    update_flower [("a1", ⟨"Rose", 50000, "Red", "bunch", 5, "", none, 0⟩)] "a1"
        ⟨none, none, none, none, none, none, some "rose.png"⟩ none =
      (UpdateResult.badRequest,
       [("a1", ⟨"Rose", 50000, "Red", "bunch", 5, "", none, 0⟩)], []) :=
  ⟨by decide,
   spec_c10_image_only_update [("a1", ⟨"Rose", 50000, "Red", "bunch", 5, "", none, 0⟩)]
     "a1" "rose.png" (by decide)⟩

end FlowerShop
